import Mathlib

/-
Formal model of the ldapviewer client-side filter engine
(src/unnamed/part_000, the final script variant of the repository).

Records rendered as DOM cards or table rows are modelled through the
Record Accessor abstraction: an entry is a display name plus an ordered
list of attribute key/value cells; a table is a header list plus rows of
cell strings.  JavaScript host primitives (parseInt, trim, split, the
32-bit bitwise AND, toUpperCase/toLowerCase, substring inclusion) are
modelled by executable Lean functions on characters.  The Date
constructor is an external collaborator and is passed in as an oracle
mapping a date string to an optional epoch-millisecond value.
-/
-- ===========================================================================
-- JavaScript primitive models

-- ===========================================================================

/-- JS whitespace test (ASCII approximation used by trim and parseInt). -/
def jsWs (c : Char) : Bool := c.isWhitespace

/-- Model of JS String.prototype.trim on a character list. -/
def trimChars (cs : List Char) : List Char :=
  ((cs.dropWhile jsWs).reverse.dropWhile jsWs).reverse

/-- Model of JS String.prototype.trim. -/
def jsTrim (s : String) : String := String.mk (trimChars s.data)

/-- Longest leading run of decimal digits. -/
def leadingDigits : List Char → List Char
  | [] => []
  | c :: cs => if c.isDigit then c :: leadingDigits cs else []

/-- Numeric value of a decimal digit character. -/
def digitVal (c : Char) : Nat := c.toNat - 48

/-- Value of a decimal digit string. -/
def digitsToNat (ds : List Char) : Nat :=
  ds.foldl (fun acc c => acc * 10 + digitVal c) 0

/-- Decimal interpretation of the longest leading digit run, if any. -/
def digitRunValue (cs : List Char) : Option Int :=
  let ds := leadingDigits cs
  if ds.isEmpty then none else some (digitsToNat ds : Int)

/-- Model of JS parseInt(s, 10): skip leading whitespace, optional sign,
then the longest decimal-digit run; NaN (none) when no digit follows. -/
def jsParseIntChars (cs : List Char) : Option Int :=
  match cs.dropWhile jsWs with
  | [] => none
  | c :: rest =>
    if c = '-' then (digitRunValue rest).map (fun n => -n)
    else if c = '+' then digitRunValue rest
    else digitRunValue (c :: rest)

/-- Model of JS parseInt(s, 10) on strings. -/
def jsParseInt (s : String) : Option Int := jsParseIntChars s.data

/-- ToUint32 conversion underlying the JS bitwise AND. -/
def toUint32 (i : Int) : Nat := (i % (4294967296 : Int)).toNat

/-- JS (a & b) !== 0 test on integers (32-bit wraparound semantics). -/
def uacBitTest (uac flagValue : Int) : Bool :=
  Nat.land (toUint32 uac) (toUint32 flagValue) != 0

/-- Model of JS String.prototype.split with a one-character separator. -/
def splitOnCharList (sep : Char) : List Char → List (List Char)
  | [] => [[]]
  | c :: cs =>
    if c = sep then [] :: splitOnCharList sep cs
    else
      match splitOnCharList sep cs with
      | [] => [[c]]
      | g :: gs => (c :: g) :: gs

/-- String-level split on a one-character separator. -/
def jsSplit (sep : Char) (s : String) : List String :=
  (splitOnCharList sep s.data).map String.mk

/-- Model of JS toUpperCase (ASCII). -/
def jsToUpper (s : String) : String := String.mk (s.data.map Char.toUpper)

/-- Model of JS toLowerCase (ASCII). -/
def jsToLower (s : String) : String := String.mk (s.data.map Char.toLower)

/-- Needle-at-head test for the substring search below. -/
def strStartsWithChars : List Char → List Char → Bool
  | [], _ => true
  | _ :: _, [] => false
  | a :: as, b :: bs => a == b && strStartsWithChars as bs

/-- Model of JS String.prototype.includes: substring containment. -/
def strContainsChars (needle : List Char) : List Char → Bool
  | [] => strStartsWithChars needle []
  | c :: t => strStartsWithChars needle (c :: t) || strContainsChars needle t

/-- haystack.includes(needle) on strings. -/
def containsSubstring (hay needle : String) : Bool :=
  strContainsChars needle.data hay.data

-- ===========================================================================
-- Data model: one UAC flag chip selection

-- ===========================================================================

/-- One selected UAC filter chip: a flag bit value and whether the chip
demands the bit to be absent (data-inverse). -/
structure FlagSpec where
  value : Int
  inverse : Bool
deriving DecidableEq, Repr

-- ===========================================================================
-- hasUACFlags (part_000 lines 223-238)

-- ===========================================================================

/-- function hasUACFlags(userAccountControl, flags): false on empty input
string or empty flag list or unparsable integer; otherwise every selected
flag must hold, where an inverse chip demands the bit clear. -/
def hasUACFlags (userAccountControl : String) (flags : List FlagSpec) : Bool :=
  if userAccountControl = "" ∨ flags.isEmpty then false
  else
    match jsParseInt userAccountControl with
    | none => false
    | some uac =>
      flags.all (fun flagObj =>
        if flagObj.inverse then !(uacBitTest uac flagObj.value)
        else uacBitTest uac flagObj.value)

/-- Specification-side reading of one flag entry: bit set when
inverse=false, bit clear when inverse=true. -/
def uacFlagHolds (uac : Int) (f : FlagSpec) : Prop :=
  if f.inverse then Nat.land (toUint32 uac) (toUint32 f.value) = 0
  else Nat.land (toUint32 uac) (toUint32 f.value) ≠ 0

instance (uac : Int) (f : FlagSpec) : Decidable (uacFlagHolds uac f) := by
  unfold uacFlagHolds
  exact inferInstance

-- ===========================================================================
-- getRIDFromObjectSID (part_000 lines 216-221)

-- ===========================================================================

/-- function getRIDFromObjectSID(objectSID): null for an absent SID, else
parseInt of the last dash-separated segment, null when that is NaN. -/
def getRIDFromObjectSID (objectSID : String) : Option Int :=
  if objectSID = "" then none
  else
    match (splitOnCharList '-' objectSID.data).getLast? with
    | none => none
    | some lastSegment => jsParseIntChars lastSegment

-- Lemmas about the split model, used to locate the trailing SID segment.

-- ===========================================================================
-- Record model: one detail-view entry (card) seen through the accessor

-- ===========================================================================

/-- One rendered directory object card: the heading text, the ordered
key/value attribute cells, the group chips, the tag classes on the
container, the id of the attributes div and the display state. -/
structure Entry where
  entryId : String
  displayName : String
  attrs : List (String × String)
  groupChips : List String
  owned : Bool
  highValue : Bool
  groupedEntry : Bool
  display : Bool
deriving DecidableEq, Repr

/-- An all-default entry, convenient base for concrete examples. -/
def baseEntry : Entry :=
  ⟨"", "", [], [], false, false, false, true⟩

/-- Record Accessor: find the first key cell with the given text and read
the adjacent value cell (the getElementsByClassName key scan). -/
def findAttr (e : Entry) (name : String) : Option String :=
  (e.attrs.find? (fun cell => cell.1 == name)).map (fun cell => cell.2)

-- ===========================================================================
-- parseADDate (part_000 lines 268-277) and hasUnsupportedOS (282-286)

-- ===========================================================================

/-- function parseADDate(dateStr), with the Date constructor supplied as
an oracle dp from date text to optional epoch milliseconds: text with a
dot keeps only the part before the first dot, otherwise a trailing +00:00
offset marker is removed. -/
def parseADDate (dp : String → Option Int) (dateStr : String) : Option Int :=
  if dateStr.data.contains '.' then
    dp (String.mk ((splitOnCharList '.' dateStr.data).headD []))
  else
    dp (dateStr.replace "+00:00" "")

/-- function hasUnsupportedOS(osValue): case-insensitive substring match
against the end-of-life version alternation, false on empty text. -/
def hasUnsupportedOS (osValue : String) : Bool :=
  if osValue = "" then false
  else
    ["2000", "2003", "2008", "xp", "vista", "7", "me"].any
      (fun pat => containsSubstring (jsToLower osValue) pat)

-- ===========================================================================
-- isKerberoastable (part_000 lines 293-316)

-- ===========================================================================

/-- function isKerberoastable(entry): a non-empty servicePrincipalName
cell and no ACCOUNTDISABLE bit (0x2) in the parsed userAccountControl. -/
def isKerberoastable (entry : Entry) : Bool :=
  let hasSPN :=
    match findAttr entry "servicePrincipalName" with
    | some v => jsTrim v != ""
    | none => false
  let isDisabled :=
    match findAttr entry "userAccountControl" with
    | some uacValue =>
      match jsParseInt uacValue with
      | some uacInt => uacBitTest uacInt 2
      | none => false
    | none => false
  hasSPN && !isDisabled

-- ===========================================================================
-- hasLDAPAttribute (part_000 lines 240-261)

-- ===========================================================================

/-- function hasLDAPAttribute(entry, attributeName, expectedValue):
delegates the (servicePrincipalName, null) query to isKerberoastable;
otherwise a missing attribute never matches, a null expected value means
a non-empty trimmed value, and a concrete expected value means exact
equality of the trimmed value. -/
def hasLDAPAttribute (entry : Entry) (attributeName : String)
    (expectedValue : Option String) : Bool :=
  if attributeName = "servicePrincipalName" ∧ expectedValue = none then
    isKerberoastable entry
  else
    match findAttr entry attributeName with
    | none => false
    | some v =>
      match expectedValue with
      | none => jsTrim v != ""
      | some ev => jsTrim v == ev

/-- Specification-side predicate: the entry exposes a servicePrincipalName
cell whose trimmed text is non-empty. -/
def hasNonEmptySPN (e : Entry) : Prop :=
  ∃ v, findAttr e "servicePrincipalName" = some v ∧ jsTrim v ≠ ""

/-- Specification-side predicate: the entry exposes a userAccountControl
cell that parses to an integer with bit 0x2 set. -/
def accountDisabledBit (e : Entry) : Prop :=
  ∃ v u, findAttr e "userAccountControl" = some v ∧ jsParseInt v = some u ∧
    Nat.land (toUint32 u) (toUint32 2) ≠ 0

-- ===========================================================================
-- applyGeneralFilter (part_000 lines 344-413)

-- ===========================================================================

/-- function applyGeneralFilter(entry, filterType), with the Date oracle
dp and the current clock in epoch milliseconds.  A null or empty filter
type always passes; default and nonDefault compare the RID taken from the
objectSid cell against 1000; the date filters compare parsed cell dates
against fixed windows, treating missing or sentinel values as a mismatch;
neverLoggedIn compares the trimmed logonCount text with the string 0;
owned and nonowned test the owned tag class. -/
def applyGeneralFilter (dp : String → Option Int) (now : Int)
    (entry : Entry) (filterType : Option String) : Bool :=
  match filterType with
  | none => true
  | some ft =>
    if ft = "" then true
    else if ft = "default" ∨ ft = "nonDefault" then
      let rid :=
        match findAttr entry "objectSid" with
        | some v => getRIDFromObjectSID v
        | none => none
      match rid with
      | some r => if ft = "default" then decide (r ≤ 1000) else decide (r > 1000)
      | none => false
    else if ft = "recentlyCreated" then
      match findAttr entry "whenCreated" with
      | none => false
      | some v =>
        let whenCreated := jsTrim v
        if whenCreated = "" then false
        else
          match parseADDate dp whenCreated with
          | none => false
          | some created => decide (now - created ≤ 30 * 86400000)
    else if ft = "inactiveAccounts" then
      match findAttr entry "lastLogon" with
      | none => false
      | some v =>
        let lastLogon := jsTrim v
        if lastLogon = "" ∨ lastLogon = "1601-01-01 00:00:00+00:00" then false
        else
          match parseADDate dp lastLogon with
          | none => false
          | some logon => decide (now - logon > 90 * 86400000)
    else if ft = "neverLoggedIn" then
      match findAttr entry "logonCount" with
      | none => false
      | some v => jsTrim v == "0"
    else if ft = "owned" then entry.owned
    else if ft = "nonowned" then !entry.owned
    else true

/-- The RID the general filter reads from an entry: the objectSid cell
passed through getRIDFromObjectSID, null when the cell is missing. -/
def entryRID (e : Entry) : Option Int :=
  match findAttr e "objectSid" with
  | some v => getRIDFromObjectSID v
  | none => none

-- ===========================================================================
-- Filter State Store (part_000 lines 327-341)

-- ===========================================================================

/-- General filter category state. -/
structure GeneralFilterState where
  enabled : Bool
  generalFilter : Option String
deriving DecidableEq, Repr

/-- UAC filter category state. -/
structure UACFilterState where
  enabled : Bool
  flags : List FlagSpec
deriving DecidableEq, Repr

/-- One selected LDAP attribute filter chip; unsupportedOS marks the
pseudo-attribute routed to hasUnsupportedOS. -/
structure AttrFilter where
  attrName : String
  value : Option String
  unsupportedOS : Bool
deriving DecidableEq, Repr

/-- LDAP attribute filter category state. -/
structure LDAPFilterState where
  enabled : Bool
  attributes : List AttrFilter
deriving DecidableEq, Repr

/-- The filterStates global object. -/
structure FilterStates where
  search : String
  general : GeneralFilterState
  uac : UACFilterState
  ldapAttributes : LDAPFilterState
deriving DecidableEq, Repr

/-- Filter state with every category disabled and an empty search. -/
def defaultFilterStates : FilterStates :=
  ⟨"", ⟨false, none⟩, ⟨false, []⟩, ⟨false, []⟩⟩

-- ===========================================================================
-- getSearchableText (part_000 lines 742-784)

-- ===========================================================================

/-- function getSearchableText(element): heading text, every key cell,
every value cell and every group chip, each trimmed and space-joined, all
lowercased.  The special UAC cell handling is absorbed by the Record
Accessor, whose value text is what the scan reads. -/
def getSearchableText (element : Entry) : String :=
  jsToLower (jsTrim element.displayName ++ " "
    ++ String.join (element.attrs.map (fun kv => jsTrim kv.1 ++ " "))
    ++ String.join (element.attrs.map (fun kv => jsTrim kv.2 ++ " "))
    ++ String.join (element.groupChips.map (fun chip => jsTrim chip ++ " ")))

-- ===========================================================================
-- applyFiltersToDetailView, flat branch (part_000 lines 500-551)

-- ===========================================================================

/-- The per-entry decision of applyFiltersToDetailView: the sequential
shouldShow updates of the flat detail-view loop. -/
def entryShouldShow (fs : FilterStates) (dp : String → Option Int)
    (now : Int) (entry : Entry) : Bool :=
  let shouldShow := true
  let shouldShow :=
    if fs.search != "" && shouldShow then
      containsSubstring (getSearchableText entry) fs.search
    else shouldShow
  let shouldShow :=
    if fs.general.enabled && shouldShow then
      applyGeneralFilter dp now entry fs.general.generalFilter
    else shouldShow
  let shouldShow :=
    if fs.uac.enabled && shouldShow then
      match findAttr entry "userAccountControl" with
      | some uacValue => hasUACFlags uacValue fs.uac.flags
      | none => false
    else shouldShow
  let shouldShow :=
    if fs.ldapAttributes.enabled && shouldShow then
      fs.ldapAttributes.attributes.all (fun attrFilter =>
        if attrFilter.unsupportedOS then
          hasUnsupportedOS
            (match findAttr entry "operatingSystem" with
             | some v => jsTrim v
             | none => "")
        else hasLDAPAttribute entry attrFilter.attrName attrFilter.value)
    else shouldShow
  shouldShow

/-- The flat detail-view pass of applyFiltersToDetailView: set each
entry display state from the combined predicate. -/
def applyFiltersToDetailView (fs : FilterStates) (dp : String → Option Int)
    (now : Int) (entries : List Entry) : List Entry :=
  entries.map (fun entry => {entry with display := entryShouldShow fs dp now entry})

-- Specification-side category predicates: what each filter category
-- demands of an entry when active, true when inactive.

/-- Search category: pass when the search text is empty or occurs in the
searchable text. -/
def categorySearch (fs : FilterStates) (e : Entry) : Bool :=
  if fs.search != "" then containsSubstring (getSearchableText e) fs.search
  else true

/-- General category: pass when disabled or the general filter holds. -/
def categoryGeneral (fs : FilterStates) (dp : String → Option Int)
    (now : Int) (e : Entry) : Bool :=
  if fs.general.enabled then applyGeneralFilter dp now e fs.general.generalFilter
  else true

/-- UAC category: pass when disabled; when enabled the entry must expose
a userAccountControl cell satisfying hasUACFlags. -/
def categoryUAC (fs : FilterStates) (e : Entry) : Bool :=
  if fs.uac.enabled then
    match findAttr e "userAccountControl" with
    | some uacValue => hasUACFlags uacValue fs.uac.flags
    | none => false
  else true

/-- LDAP category: pass when disabled; when enabled every selected
attribute filter must hold. -/
def categoryLDAP (fs : FilterStates) (e : Entry) : Bool :=
  if fs.ldapAttributes.enabled then
    fs.ldapAttributes.attributes.all (fun attrFilter =>
      if attrFilter.unsupportedOS then
        hasUnsupportedOS
          (match findAttr e "operatingSystem" with
           | some v => jsTrim v
           | none => "")
      else hasLDAPAttribute e attrFilter.attrName attrFilter.value)
  else true

/-- The same sequential evaluation with the category order reversed
(LDAP, UAC, general, search), used to state order independence. -/
def entryShouldShowReversed (fs : FilterStates) (dp : String → Option Int)
    (now : Int) (entry : Entry) : Bool :=
  let shouldShow := true
  let shouldShow :=
    if fs.ldapAttributes.enabled && shouldShow then
      fs.ldapAttributes.attributes.all (fun attrFilter =>
        if attrFilter.unsupportedOS then
          hasUnsupportedOS
            (match findAttr entry "operatingSystem" with
             | some v => jsTrim v
             | none => "")
        else hasLDAPAttribute entry attrFilter.attrName attrFilter.value)
    else shouldShow
  let shouldShow :=
    if fs.uac.enabled && shouldShow then
      match findAttr entry "userAccountControl" with
      | some uacValue => hasUACFlags uacValue fs.uac.flags
      | none => false
    else shouldShow
  let shouldShow :=
    if fs.general.enabled && shouldShow then
      applyGeneralFilter dp now entry fs.general.generalFilter
    else shouldShow
  let shouldShow :=
    if fs.search != "" && shouldShow then
      containsSubstring (getSearchableText entry) fs.search
    else shouldShow
  shouldShow

-- ===========================================================================
-- applyFiltersToTableView (part_000 lines 556-710)

-- ===========================================================================

/-- findIndex over the header cells: the column of the given header text,
none for the JS sentinel -1. -/
def findHeaderIndex (ths : List String) (name : String) : Option Nat :=
  ths.findIdx? (fun th => th == name)

/-- row.cells[idx] text with a missing cell read as empty text. -/
def cellText (row : List String) (idx : Nat) : String :=
  (row.get? idx).getD ""

/-- The general-filter switch of the table-view loop, acting on the
pre-computed column indices; unmatched filter kinds leave the previous
decision unchanged. A date column missing from the header leaves the
date text null; the model returns a hidden row where the original code
would fault on the null, which no rendered document produces. -/
def applyTableGeneralFilter (dp : String → Option Int) (now : Int)
    (objectSIDIndex whenCreatedIndex lastLogonIndex logonCountIndex : Option Nat)
    (row : List String) (filterType : Option String) (prev : Bool) : Bool :=
  match filterType with
  | none => prev
  | some ft =>
    if ft = "default" ∨ ft = "nonDefault" then
      let rid :=
        match objectSIDIndex with
        | some i => getRIDFromObjectSID (cellText row i)
        | none => none
      match rid with
      | some r => if ft = "default" then decide (r ≤ 1000) else decide (r > 1000)
      | none => false
    else if ft = "recentlyCreated" then
      match whenCreatedIndex with
      | none => false
      | some i =>
        match parseADDate dp (jsTrim (cellText row i)) with
        | none => false
        | some created => decide (now - created ≤ 30 * 86400000)
    else if ft = "inactiveAccounts" then
      match lastLogonIndex with
      | none => false
      | some i =>
        let lastLogon := jsTrim (cellText row i)
        if lastLogon = "" ∨ lastLogon = "1601-01-01 00:00:00+00:00" then false
        else
          match parseADDate dp lastLogon with
          | none => false
          | some logon => decide (now - logon > 90 * 86400000)
    else if ft = "neverLoggedIn" then
      match logonCountIndex with
      | none => false
      | some i => jsTrim (cellText row i) == "0"
    else prev

/-- One LDAP attribute filter evaluated on a table row, including the
inline Kerberoastable logic of the table path. -/
def tableAttrFilterHolds (ths : List String) (row : List String)
    (attrFilter : AttrFilter) : Bool :=
  if attrFilter.unsupportedOS then
    match findHeaderIndex ths "operatingSystem" with
    | some i => hasUnsupportedOS (jsTrim (cellText row i))
    | none => false
  else if attrFilter.attrName = "servicePrincipalName" ∧ attrFilter.value = none then
    match findHeaderIndex ths "servicePrincipalName",
      findHeaderIndex ths "userAccountControl" with
    | some spnIdx, some uacIdx =>
      let hasSPN := jsTrim (cellText row spnIdx) != ""
      let isDisabled :=
        match jsParseInt (cellText row uacIdx) with
        | some uacInt => uacBitTest uacInt 2
        | none => false
      hasSPN && !isDisabled
    | _, _ => false
  else
    match findHeaderIndex ths attrFilter.attrName with
    | some i =>
      let cellValue := jsTrim (cellText row i)
      match attrFilter.value with
      | none => cellValue != ""
      | some ev => cellValue == ev
    | none => false

/-- The per-row decision of applyFiltersToTableView: the sequential
shouldShow updates of the table-view loop. -/
def tableRowShouldShow (fs : FilterStates) (dp : String → Option Int)
    (now : Int) (ths : List String) (row : List String) : Bool :=
  let shouldShow := true
  let shouldShow :=
    if fs.search != "" && shouldShow then
      containsSubstring
        (jsToLower (String.join (row.map (fun cell => jsTrim cell ++ " "))))
        fs.search
    else shouldShow
  let shouldShow :=
    if fs.general.enabled && shouldShow then
      applyTableGeneralFilter dp now
        (findHeaderIndex ths "objectSid") (findHeaderIndex ths "whenCreated")
        (findHeaderIndex ths "lastLogon") (findHeaderIndex ths "logonCount")
        row fs.general.generalFilter shouldShow
    else shouldShow
  let shouldShow :=
    if fs.uac.enabled && shouldShow then
      match findHeaderIndex ths "userAccountControl" with
      | some i => hasUACFlags (cellText row i) fs.uac.flags
      | none => false
    else shouldShow
  let shouldShow :=
    if fs.ldapAttributes.enabled && shouldShow then
      fs.ldapAttributes.attributes.all (tableAttrFilterHolds ths row)
    else shouldShow
  shouldShow

/-- The table-view pass: set each row display state from the combined
predicate; rows are cell lists paired with their display state. -/
def applyFiltersToTableView (fs : FilterStates) (dp : String → Option Int)
    (now : Int) (ths : List String) (rows : List (List String × Bool)) :
    List (List String × Bool) :=
  rows.map (fun row => (row.1, tableRowShouldShow fs dp now ths row.1))

-- Specification-side category predicates for table rows.

/-- Search category on a table row. -/
def tcatSearch (fs : FilterStates) (row : List String) : Bool :=
  if fs.search != "" then
    containsSubstring
      (jsToLower (String.join (row.map (fun cell => jsTrim cell ++ " "))))
      fs.search
  else true

/-- General category on a table row.  The unmatched-kind branches of the
switch leave the prior decision in place, which at this point is a pass. -/
def tcatGeneral (fs : FilterStates) (dp : String → Option Int) (now : Int)
    (ths : List String) (row : List String) : Bool :=
  if fs.general.enabled then
    applyTableGeneralFilter dp now
      (findHeaderIndex ths "objectSid") (findHeaderIndex ths "whenCreated")
      (findHeaderIndex ths "lastLogon") (findHeaderIndex ths "logonCount")
      row fs.general.generalFilter true
  else true

/-- UAC category on a table row: a missing userAccountControl column
hides the row. -/
def tcatUAC (fs : FilterStates) (ths : List String) (row : List String) : Bool :=
  if fs.uac.enabled then
    match findHeaderIndex ths "userAccountControl" with
    | some i => hasUACFlags (cellText row i) fs.uac.flags
    | none => false
  else true

/-- LDAP category on a table row. -/
def tcatLDAP (fs : FilterStates) (ths : List String) (row : List String) : Bool :=
  if fs.ldapAttributes.enabled then
    fs.ldapAttributes.attributes.all (tableAttrFilterHolds ths row)
  else true

-- ===========================================================================
-- exportCSV (part_000 lines 1255-1290)

-- ===========================================================================

/-- One rendered table row: its cell texts and whether the row is
currently shown (display state set by the filter engine). -/
structure TableRow where
  cells : List String
  hidden : Bool
deriving DecidableEq, Repr

/-- The global regex replace of a double quote by two double quotes. -/
def dblQuotes : List Char → List Char
  | [] => []
  | c :: cs => if c = '"' then '"' :: '"' :: dblQuotes cs else c :: dblQuotes cs

/-- One CSV field: quotes doubled, then wrapped in double quotes when the
text contains a comma or a newline. -/
def csvField (cellText : String) : String :=
  let text := dblQuotes cellText.data
  if ',' ∈ text ∨ '\n' ∈ text then String.mk ('"' :: text ++ ['"'])
  else String.mk text

/-- One CSV output line per table row: the escaped cells comma-joined. -/
def csvLine (row : TableRow) : String :=
  String.intercalate "," (row.cells.map csvField)

/-- The csv array built by the export loop, one element per table row,
hidden rows included. -/
def csvLines (rows : List TableRow) : List String := rows.map csvLine

/-- function exportCSV(): none models the aborted export (alert shown,
nothing downloaded) when the table container is absent; otherwise the
fixed download filename and the newline-joined payload. -/
def exportCSV (table : Option (List TableRow)) : Option (String × String) :=
  match table with
  | none => none
  | some rows =>
    some ("ldap_dump_export.csv", String.intercalate "\n" (csvLines rows))

-- ===========================================================================
-- toggleOwned (part_000 lines 1128-1146) and
-- restoreOwnedEntries (part_000 lines 1222-1230)

-- ===========================================================================

/-- function toggleOwned(entry) with the persisted ownedEntries array as
explicit state: flip the owned class, then add the attributes-div id to
the array when now owned (if not already present) or remove its first
occurrence when no longer owned, and persist the array. -/
def toggleOwned (entry : Entry) (ownedEntries : List String) :
    Entry × List String :=
  let entry := {entry with owned := !entry.owned}
  let entryId := entry.entryId
  if entry.owned then
    (entry,
      if ownedEntries.contains entryId then ownedEntries
      else ownedEntries ++ [entryId])
  else
    (entry, ownedEntries.erase entryId)

/-- One restore step: add the owned class to the first entry whose
attributes-div id matches (the querySelector lookup by id). -/
def markOwnedById : List Entry → String → List Entry
  | [], _ => []
  | e :: es, targetId =>
    if e.entryId = targetId then {e with owned := true} :: es
    else e :: markOwnedById es targetId

/-- function restoreOwnedEntries(): walk the persisted id array and tag
the matching rendered entry for each id. -/
def restoreOwnedEntries (ownedEntries : List String)
    (entries : List Entry) : List Entry :=
  ownedEntries.foldl markOwnedById entries

-- ===========================================================================
-- extractUserGroups (part_000 lines 1412-1498)

-- ===========================================================================

/-- The per-user data the group projector extracts: display name, derived
group names, and the underlying entry element. -/
structure UserData where
  displayName : String
  groups : List String
  element : Entry
deriving DecidableEq, Repr

/-- The PRIMARY_GROUP_MAPPING table of well-known relative identifiers. -/
def primaryGroupMapping (groupId : Int) : Option String :=
  if groupId = 512 then some "Domain Admins"
  else if groupId = 513 then some "Domain Users"
  else if groupId = 514 then some "Domain Guests"
  else if groupId = 515 then some "Domain Computers"
  else if groupId = 516 then some "Domain Controllers"
  else if groupId = 517 then some "Cert Publishers"
  else if groupId = 518 then some "Schema Admins"
  else if groupId = 519 then some "Enterprise Admins"
  else if groupId = 520 then some "Group Policy Creator Owners"
  else if groupId = 521 then some "Read-only Domain Controllers"
  else if groupId = 522 then some "Cloneable Domain Controllers"
  else if groupId = 525 then some "Protected Users"
  else if groupId = 526 then some "Key Admins"
  else if groupId = 527 then some "Enterprise Key Admins"
  else none

/-- The primaryGroupID tail of extractUserGroups: parse the trimmed cell
text (NaN keys miss the table), map it through the table with the
Primary Group fallback, and append unless excluded or already present. -/
def addPrimaryGroup (trimmedValue : String) (groupNames : List String) :
    List String :=
  let primaryGroupName :=
    match jsParseInt trimmedValue with
    | some groupId =>
      (primaryGroupMapping groupId).getD
        ("Primary Group (" ++ toString groupId ++ ")")
    | none => "Primary Group (NaN)"
  if primaryGroupName ≠ "Users" ∧ primaryGroupName ≠ "Builtin" ∧
      primaryGroupName ∉ groupNames
  then groupNames ++ [primaryGroupName] else groupNames

/-- One iteration of the memberOf forEach: skip empty fragments, read the
first comma component, demand the case-insensitive CN= lead, and append
the trimmed substring after CN= unless empty, Users, Builtin or already
collected. -/
def memberOfStep (groupNames : List String) (memberOfEntry : String) :
    List String :=
  if memberOfEntry = "" then groupNames
  else
    let firstPart := jsTrim ((jsSplit ',' memberOfEntry).headD "")
    if strStartsWithChars "CN=".data (jsToUpper firstPart).data then
      let groupName := jsTrim (String.mk (firstPart.data.drop 3))
      if groupName ≠ "" ∧ groupName ≠ "Users" ∧ groupName ≠ "Builtin" ∧
          groupName ∉ groupNames
      then groupNames ++ [groupName] else groupNames
    else groupNames

/-- The memberOf half of extractUserGroups: split the cell text on
commas, trim each fragment, and fold the forEach body. -/
def memberOfGroupNames (e : Entry) : List String :=
  match findAttr e "memberOf" with
  | none => []
  | some memberOfText =>
    if jsTrim memberOfText = "" then []
    else ((jsSplit ',' memberOfText).map jsTrim).foldl memberOfStep []

/-- The primaryGroupID half of extractUserGroups, shared verbatim by the
claim: skip a missing or blank cell, else run addPrimaryGroup. -/
def withPrimaryGroup (e : Entry) (groupNames : List String) : List String :=
  match findAttr e "primaryGroupID" with
  | none => groupNames
  | some v =>
    if jsTrim v = "" then groupNames
    else addPrimaryGroup (jsTrim v) groupNames

/-- function extractUserGroups(entryElement). -/
def extractUserGroups (entryElement : Entry) : UserData :=
  ⟨jsTrim entryElement.displayName,
    withPrimaryGroup entryElement (memberOfGroupNames entryElement),
    entryElement⟩

-- ===========================================================================
-- createGroupedStructure (part_000 lines 1503-1526)

-- ===========================================================================

/-- Insert a user into the named group bucket of the association list,
creating the bucket on first use and skipping duplicate display names. -/
def insertUserIntoGroup : List (String × List UserData) → String → UserData →
    List (String × List UserData)
  | [], name, u => [(name, [u])]
  | (g, us) :: rest, name, u =>
    if g = name then
      (g,
        if us.any (fun x => x.displayName == u.displayName) then us
        else us ++ [u]) :: rest
    else (g, us) :: insertUserIntoGroup rest name u

/-- One iteration of the createGroupedStructure forEach: a user with no
groups goes to the ungrouped bucket, otherwise into every named group. -/
def groupedStep (result : List (String × List UserData) × List UserData)
    (userData : UserData) :
    List (String × List UserData) × List UserData :=
  if userData.groups.isEmpty then (result.1, result.2 ++ [userData])
  else
    (userData.groups.foldl (fun gs gn => insertUserIntoGroup gs gn userData)
      result.1,
     result.2)

/-- function createGroupedStructure(usersData): the groups map (in
insertion order) and the ungrouped bucket. -/
def createGroupedStructure (usersData : List UserData) :
    List (String × List UserData) × List UserData :=
  usersData.foldl groupedStep ([], [])

-- ===========================================================================
-- Claim C6 specification-side definitions (from the claim text)

-- ===========================================================================

/-- Append a name unless already collected (the deduplication of the
claim text). -/
def dedupAppend (groupNames : List String) (name : String) : List String :=
  if name ∈ groupNames then groupNames else groupNames ++ [name]

/-- The claim as stated: a fragment whose first comma component starts
with CN= (case-insensitive) contributes the trimmed substring after CN=
unless it is literally Users or Builtin. -/
def specCandidateClaimed (fragment : String) : Option String :=
  let firstComponent := jsTrim ((jsSplit ',' fragment).headD "")
  if strStartsWithChars "CN=".data (jsToUpper firstComponent).data then
    let name := jsTrim (String.mk (firstComponent.data.drop 3))
    if name = "Users" ∨ name = "Builtin" then none else some name
  else none

/-- The amended claim: additionally an empty name after CN= contributes
nothing. -/
def specCandidateAmended (fragment : String) : Option String :=
  let firstComponent := jsTrim ((jsSplit ',' fragment).headD "")
  if strStartsWithChars "CN=".data (jsToUpper firstComponent).data then
    let name := jsTrim (String.mk (firstComponent.data.drop 3))
    if name = "" ∨ name = "Users" ∨ name = "Builtin" then none else some name
  else none

/-- The comma-separated trimmed fragments of the memberOf cell, empty for
a missing or blank cell. -/
def specFragments (e : Entry) : List String :=
  match findAttr e "memberOf" with
  | none => []
  | some memberOfText =>
    if jsTrim memberOfText = "" then []
    else (jsSplit ',' memberOfText).map jsTrim

/-- The group-name derivation of the claim text, parameterised by the
per-fragment candidate rule: deduplicated fragment candidates, then the
primary-group step (claim and code agree on the latter verbatim). -/
def specGroupNamesWith (cand : String → Option String) (e : Entry) :
    List String :=
  withPrimaryGroup e (((specFragments e).filterMap cand).foldl dedupAppend [])

/-- The claim C6 derivation exactly as stated. -/
def specGroupNamesClaimed (e : Entry) : List String :=
  specGroupNamesWith specCandidateClaimed e

/-- The amended claim C6 derivation. -/
def specGroupNamesAmended (e : Entry) : List String :=
  specGroupNamesWith specCandidateAmended e

-- ===========================================================================
-- Group sections and the group-by toggle
-- (part_000 lines 1296-1406 and 1531-1570)

-- ===========================================================================

/-- One rendered group section: the header name, the cloned entries in
its group-entries container, and the section display state. -/
structure GroupSection where
  name : String
  entries : List Entry
  sectionDisplay : Bool
deriving DecidableEq, Repr

/-- The global regex replace of whitespace runs by a single underscore
used for the per-section synthetic ids. -/
def squashWsAux : List Char → Bool → List Char
  | [], _ => []
  | c :: cs, prevWs =>
    if jsWs c then
      if prevWs then squashWsAux cs true else '_' :: squashWsAux cs true
    else c :: squashWsAux cs false

/-- groupName.replace of whitespace runs by underscores. -/
def squashWs (s : String) : String := String.mk (squashWsAux s.data false)

/-- function createGroupSection(groupName, users): clone each member
entry, tag it grouped-entry, and give its attributes div the synthetic
per-section id attr_{squashed name}_{index}. -/
def createGroupSection (groupName : String) (users : List UserData) :
    GroupSection :=
  ⟨groupName,
    users.enum.map (fun p =>
      {p.2.element with
        groupedEntry := true,
        entryId := "attr_" ++ squashWs groupName ++ "_" ++ toString p.1}),
    true⟩

/-- The users of the named group bucket, empty when absent. -/
def groupsLookup (groups : List (String × List UserData)) (name : String) :
    List UserData :=
  ((groups.find? (fun g => g.1 == name)).map (fun g => g.2)).getD []

/-- function applyGroupByGroups (view construction): the ungrouped
section first when non-empty, then one section per group name in sorted
order. -/
def applyGroupByGroups (entries : List Entry) : List GroupSection :=
  let usersData := entries.map extractUserGroups
  let grouped := createGroupedStructure usersData
  (if grouped.2.isEmpty then []
   else [createGroupSection "📝 No Groups" grouped.2])
  ++ ((grouped.1.map Prod.fst).mergeSort (fun a b => a ≤ b)).map
      (fun groupName => createGroupSection groupName
        (groupsLookup grouped.1 groupName))

/-- The grouped branch of applyFiltersToDetailView: filter the entries of
every section, and hide a section with no visible entry. -/
def applyFiltersToGroupedSections (fs : FilterStates)
    (dp : String → Option Int) (now : Int) (sections : List GroupSection) :
    List GroupSection :=
  sections.map (fun sec =>
    let filtered := sec.entries.map (fun e =>
      {e with display := entryShouldShow fs dp now e})
    ⟨sec.name, filtered, filtered.any (fun e => e.display)⟩)

/-- The detail-view state the group toggle acts on: the flat entry list,
the grouped projection, the stored originals and the mode flag. -/
structure ViewState where
  view : List Entry
  groupedView : List GroupSection
  originalEntries : List Entry
  isGroupedByGroups : Bool
deriving DecidableEq, Repr

/-- The grouped-entry class cleanup of removeGroupByGroups. -/
def removeGroupedClass (e : Entry) : Entry := {e with groupedEntry := false}

/-- function toggleUsersByGroups(): toggling on stores the current flat
entries, builds the grouped projection and re-runs the filter engine on
it; toggling off rebuilds the flat view from the stored originals with
the grouped-entry class removed and re-runs the filter engine. -/
def toggleUsersByGroups (fs : FilterStates) (dp : String → Option Int)
    (now : Int) (s : ViewState) : ViewState :=
  if !s.isGroupedByGroups then
    ⟨[],
      applyFiltersToGroupedSections fs dp now (applyGroupByGroups s.view),
      s.view, true⟩
  else
    ⟨applyFiltersToDetailView fs dp now
        (s.originalEntries.map removeGroupedClass),
      [], s.originalEntries, false⟩

/-- A one-entry view consistent with the all-disabled filter state. -/
def viewStateOne : ViewState := ⟨[baseEntry], [], [], false⟩

-- ===========================================================================
-- Theorems
-- ===========================================================================

/-- Claim C10: for every input string, hasUACFlags with an empty flag list
returns false; the AND over no flag specifications is not vacuously true. -/
theorem hasUACFlags_empty_flags_false :
    ∀ uacRaw : String, hasUACFlags uacRaw [] = false := by
  intro uacRaw
  simp [hasUACFlags]

/-- Claim C1: for a non-empty flag list, hasUACFlags parses the string as
an integer (parse failure gives false) and returns true iff every flag
specification holds (bit set for inverse=false, bit clear for
inverse=true); in particular 514 has bit 2 set and 512 does not. -/
theorem hasUACFlags_and_of_flagSpecs :
    (∀ (uacRaw : String) (flags : List FlagSpec), flags ≠ [] →
      (hasUACFlags uacRaw flags = true ↔
        ∃ uac, jsParseInt uacRaw = some uac ∧ ∀ f ∈ flags, uacFlagHolds uac f))
    ∧ hasUACFlags "514" [⟨2, false⟩] = true
    ∧ hasUACFlags "512" [⟨2, false⟩] = false := by
  refine ⟨?_, by decide, by decide⟩
  intro uacRaw flags hflags
  unfold hasUACFlags
  by_cases hraw : uacRaw = ""
  · subst hraw
    have hparse : jsParseInt "" = none := by decide
    simp [hparse]
  · rw [if_neg]
    · cases hparse : jsParseInt uacRaw with
      | none => simp
      | some uac =>
        simp only [List.all_eq_true]
        constructor
        · intro h
          refine ⟨uac, rfl, ?_⟩
          intro f hf
          have := h f hf
          unfold uacFlagHolds
          cases hinv : f.inverse with
          | true =>
            simp only [hinv, if_true] at this ⊢
            simpa [uacBitTest] using this
          | false =>
            simp only [hinv, if_false] at this ⊢
            simpa [uacBitTest] using this
        · rintro ⟨uac2, huac2, hall⟩
          have huacEq : uac2 = uac := by
            injection huac2 with h
            exact h.symm
          subst huacEq
          intro f hf
          have := hall f hf
          unfold uacFlagHolds at this
          cases hinv : f.inverse with
          | true =>
            simp only [hinv, if_true] at this ⊢
            simpa [uacBitTest]
          | false =>
            simp only [hinv, if_false] at this ⊢
            simpa [uacBitTest]
    · rintro (h | h)
      · exact hraw h
      · exact hflags (List.isEmpty_iff.mp h)

/-- Witness for claim C1 at the concrete inputs of the spec example. -/
theorem hasUACFlags_and_of_flagSpecs_witness :
    ([(⟨2, false⟩ : FlagSpec)] ≠ []) ∧
    (hasUACFlags "514" [⟨2, false⟩] = true ↔
      ∃ uac, jsParseInt "514" = some uac ∧
        ∀ f ∈ [(⟨2, false⟩ : FlagSpec)], uacFlagHolds uac f) :=
  ⟨by decide, hasUACFlags_and_of_flagSpecs.1 "514" [⟨2, false⟩] (by decide)⟩

theorem splitOnCharList_cons (sep c : Char) (cs : List Char) :
    splitOnCharList sep (c :: cs) =
      if c = sep then [] :: splitOnCharList sep cs
      else
        match splitOnCharList sep cs with
        | [] => [[c]]
        | g :: gs => (c :: g) :: gs := rfl

theorem splitOnCharList_ne_nil (sep : Char) (cs : List Char) :
    splitOnCharList sep cs ≠ [] := by
  induction cs with
  | nil => simp [splitOnCharList]
  | cons c cs ih =>
    unfold splitOnCharList
    by_cases h : c = sep
    · simp [h]
    · rw [if_neg h]
      cases hsplit : splitOnCharList sep cs with
      | nil => simp
      | cons g gs => simp

theorem splitOnCharList_append (sep : Char) (a b : List Char) :
    splitOnCharList sep (a ++ sep :: b) =
      splitOnCharList sep a ++ splitOnCharList sep b := by
  induction a with
  | nil =>
    rw [List.nil_append, splitOnCharList_cons, if_pos rfl]
    rfl
  | cons c a ih =>
    by_cases h : c = sep
    · subst h
      rw [List.cons_append, splitOnCharList_cons, if_pos rfl, ih,
        splitOnCharList_cons, if_pos rfl, List.cons_append]
    · rw [List.cons_append, splitOnCharList_cons, if_neg h, ih,
        splitOnCharList_cons, if_neg h]
      cases hsplit : splitOnCharList sep a with
      | nil => exact absurd hsplit (splitOnCharList_ne_nil sep a)
      | cons g gs => simp

theorem splitOnCharList_no_sep (sep : Char) (cs : List Char)
    (h : sep ∉ cs) : splitOnCharList sep cs = [cs] := by
  induction cs with
  | nil => simp [splitOnCharList]
  | cons c cs ih =>
    have hc : c ≠ sep := fun hEq => h (hEq ▸ List.mem_cons_self c cs)
    have hcs : sep ∉ cs := fun hIn => h (List.mem_cons_of_mem c hIn)
    unfold splitOnCharList
    rw [if_neg hc, ih hcs]

/-- The SID model applied to a string with a dash before its final
segment reads exactly that final segment. -/
theorem getRIDFromObjectSID_last_segment (pre s : String)
    (hs : '-' ∉ s.data) :
    getRIDFromObjectSID (pre ++ "-" ++ s) = jsParseIntChars s.data := by
  have hdata : (pre ++ "-" ++ s).data = pre.data ++ '-' :: s.data := by
    rw [String.data_append, String.data_append, List.append_assoc]
    rfl
  have hne : (pre ++ "-" ++ s) ≠ "" := by
    intro h
    have : (pre ++ "-" ++ s).data = [] := by rw [h]
    rw [hdata] at this
    exact List.append_ne_nil_of_right_ne_nil _ (by simp) this
  unfold getRIDFromObjectSID
  rw [if_neg hne, hdata, splitOnCharList_append, splitOnCharList_no_sep _ _ hs,
    List.getLast?_concat]

theorem ws_not_digit (c : Char) (hw : c.isWhitespace = true) :
    c.isDigit = false := by
  simp only [Char.isWhitespace, Bool.or_eq_true, decide_eq_true_eq] at hw
  rcases hw with ((h1 | h1) | h1) | h1 <;> (subst h1; decide)

theorem digit_not_ws (c : Char) (h : c.isDigit = true) : jsWs c = false := by
  unfold jsWs
  rcases Bool.eq_false_or_eq_true c.isWhitespace with hx | hx
  · rw [ws_not_digit c hx] at h
    exact absurd h (by simp)
  · exact hx

theorem leadingDigits_all_digits (ds : List Char)
    (h : ∀ c ∈ ds, c.isDigit = true) : leadingDigits ds = ds := by
  induction ds with
  | nil => rfl
  | cons c cs ih =>
    unfold leadingDigits
    rw [if_pos (h c (List.mem_cons_self c cs)),
      ih (fun x hx => h x (List.mem_cons_of_mem c hx))]

/-- An all-digit, non-empty segment parses to its decimal value. -/
theorem jsParseIntChars_digits (ds : List Char) (hne : ds ≠ [])
    (hdig : ∀ c ∈ ds, c.isDigit = true) :
    jsParseIntChars ds = some (digitsToNat ds : Int) := by
  cases ds with
  | nil => exact absurd rfl hne
  | cons c cs =>
    have hc := hdig c (List.mem_cons_self c cs)
    have hnws : jsWs c = false := digit_not_ws c hc
    have hdrop : (c :: cs).dropWhile jsWs = c :: cs := by
      rw [List.dropWhile_cons_of_neg (by simp [hnws])]
    have hcm : c ≠ '-' := by
      intro h; subst h; exact absurd hc (by decide)
    have hcp : c ≠ '+' := by
      intro h; subst h; exact absurd hc (by decide)
    unfold jsParseIntChars
    rw [hdrop]
    simp only [if_neg hcm, if_neg hcp]
    unfold digitRunValue
    rw [leadingDigits_all_digits _ hdig]
    simp

/-- Claim C7: an absent SID gives null; a SID with a trailing all-digit
segment of value n gives n; a SID whose final dash-separated segment does
not parse as an integer gives null. -/
theorem ridFromSid_trailing_component :
    getRIDFromObjectSID "" = none
    ∧ (∀ (pre s : String) (n : Nat), '-' ∉ s.data → s.data ≠ [] →
        (∀ c ∈ s.data, c.isDigit = true) → digitsToNat s.data = n →
        getRIDFromObjectSID (pre ++ "-" ++ s) = some (n : Int))
    ∧ (∀ pre s : String, '-' ∉ s.data → jsParseIntChars s.data = none →
        getRIDFromObjectSID (pre ++ "-" ++ s) = none) := by
  refine ⟨by decide, ?_, ?_⟩
  · intro pre s n hdash hne hdig hval
    rw [getRIDFromObjectSID_last_segment pre s hdash,
      jsParseIntChars_digits s.data hne hdig, hval]
  · intro pre s hdash hparse
    rw [getRIDFromObjectSID_last_segment pre s hdash, hparse]

/-- Witness for claim C7 on a concrete well-formed SID. -/
theorem ridFromSid_trailing_component_witness :
    ('-' ∉ "512".data) ∧ ("512".data ≠ []) ∧
    (∀ c ∈ "512".data, c.isDigit = true) ∧ digitsToNat "512".data = 512 ∧
    getRIDFromObjectSID ("S-1-5-21-1111-2222-3333" ++ "-" ++ "512") =
      some (512 : Int) :=
  ⟨by decide, by decide, by decide, by decide,
    ridFromSid_trailing_component.2.1 "S-1-5-21-1111-2222-3333" "512" 512
      (by decide) (by decide) (by decide) (by decide)⟩

/-- Claim C4: isKerberoastable is exactly non-empty SPN together with a
clear ACCOUNTDISABLE bit, and hasLDAPAttribute on servicePrincipalName
with a null expected value is exactly isKerberoastable. -/
theorem isKerberoastable_spn_and_not_disabled (e : Entry) :
    (isKerberoastable e = true ↔ hasNonEmptySPN e ∧ ¬ accountDisabledBit e)
    ∧ hasLDAPAttribute e "servicePrincipalName" none = isKerberoastable e := by
  constructor
  · unfold isKerberoastable hasNonEmptySPN accountDisabledBit
    cases hspn : findAttr e "servicePrincipalName" with
    | none =>
      simp only [hspn]
      simp
    | some v =>
      cases huac : findAttr e "userAccountControl" with
      | none =>
        simp only [hspn, huac]
        simp [bne_iff_ne]
      | some w =>
        cases hparse : jsParseInt w with
        | none =>
          simp only [hspn, huac, hparse]
          simp [bne_iff_ne, hparse]
        | some u =>
          simp only [hspn, huac, hparse]
          simp only [Bool.and_eq_true, Bool.not_eq_true']
          constructor
          · rintro ⟨h1, h2⟩
            refine ⟨⟨v, rfl, by simpa [bne_iff_ne] using h1⟩, ?_⟩
            rintro ⟨v2, u2, hv2, hu2, hbit⟩
            have hveq : v2 = w := by injection hv2 with hh; exact hh.symm
            subst hveq
            have hueq : u2 = u := by
              rw [hparse] at hu2
              injection hu2 with hh
              exact hh.symm
            subst hueq
            exact hbit (by simpa [uacBitTest] using h2)
          · rintro ⟨⟨v2, hv2, hne⟩, hnd⟩
            have hveq : v2 = v := by injection hv2 with hh; exact hh.symm
            subst hveq
            refine ⟨by simpa [bne_iff_ne] using hne, ?_⟩
            by_contra hbit
            exact hnd ⟨w, u, rfl, by rw [hparse], by
              simpa [uacBitTest] using hbit⟩
  · unfold hasLDAPAttribute
    rw [if_pos ⟨rfl, rfl⟩]

/-- Claim C3: on every entry the default and nonDefault general filters
are mutually exclusive, jointly exhaustive when the RID is non-null
(default iff RID at most 1000, nonDefault iff RID above 1000), and both
false when the RID is null. -/
theorem generalFilter_default_nonDefault_partition
    (dp : String → Option Int) (now : Int) (e : Entry) :
    (¬(applyGeneralFilter dp now e (some "default") = true ∧
       applyGeneralFilter dp now e (some "nonDefault") = true))
    ∧ (entryRID e ≠ none →
        ((applyGeneralFilter dp now e (some "default") = true ↔
          ∃ r, entryRID e = some r ∧ r ≤ 1000)
        ∧ (applyGeneralFilter dp now e (some "nonDefault") = true ↔
          ∃ r, entryRID e = some r ∧ r > 1000)
        ∧ (applyGeneralFilter dp now e (some "default") = true ∨
           applyGeneralFilter dp now e (some "nonDefault") = true)))
    ∧ (entryRID e = none →
        (applyGeneralFilter dp now e (some "default") = false ∧
         applyGeneralFilter dp now e (some "nonDefault") = false)) := by
  have hdef : applyGeneralFilter dp now e (some "default") =
      (match entryRID e with
       | some r => decide (r ≤ 1000)
       | none => false) := by
    unfold applyGeneralFilter entryRID
    simp
  have hnd : applyGeneralFilter dp now e (some "nonDefault") =
      (match entryRID e with
       | some r => decide (r > 1000)
       | none => false) := by
    unfold applyGeneralFilter entryRID
    simp
  refine ⟨?_, ?_, ?_⟩
  · rintro ⟨h1, h2⟩
    rw [hdef] at h1
    rw [hnd] at h2
    cases hr : entryRID e with
    | none => rw [hr] at h1; exact absurd h1 (by simp)
    | some r =>
      rw [hr] at h1 h2
      simp only [decide_eq_true_eq] at h1 h2
      omega
  · intro hne
    cases hr : entryRID e with
    | none => exact absurd hr hne
    | some r =>
      rw [hdef, hnd, hr]
      refine ⟨?_, ?_, ?_⟩
      · simp only [decide_eq_true_eq]
        constructor
        · intro h; exact ⟨r, rfl, h⟩
        · rintro ⟨r2, hr2, hle⟩
          injection hr2 with hh
          exact hh ▸ hle
      · simp only [decide_eq_true_eq]
        constructor
        · intro h; exact ⟨r, rfl, h⟩
        · rintro ⟨r2, hr2, hgt⟩
          injection hr2 with hh
          exact hh ▸ hgt
      · simp only [decide_eq_true_eq]
        omega
  · intro hr
    rw [hdef, hnd, hr]
    exact ⟨rfl, rfl⟩

/-- Witness for claim C3 on an entry with RID 500. -/
theorem generalFilter_default_nonDefault_partition_witness :
    (entryRID {baseEntry with
        attrs := [("objectSid", "S-1-5-21-1-2-3-500")]} ≠ none)
    ∧ ((applyGeneralFilter (fun _ => none) 0
          {baseEntry with attrs := [("objectSid", "S-1-5-21-1-2-3-500")]}
          (some "default") = true ↔
        ∃ r, entryRID {baseEntry with
            attrs := [("objectSid", "S-1-5-21-1-2-3-500")]} = some r ∧
          r ≤ 1000)
      ∧ (applyGeneralFilter (fun _ => none) 0
          {baseEntry with attrs := [("objectSid", "S-1-5-21-1-2-3-500")]}
          (some "nonDefault") = true ↔
        ∃ r, entryRID {baseEntry with
            attrs := [("objectSid", "S-1-5-21-1-2-3-500")]} = some r ∧
          r > 1000)
      ∧ (applyGeneralFilter (fun _ => none) 0
          {baseEntry with attrs := [("objectSid", "S-1-5-21-1-2-3-500")]}
          (some "default") = true ∨
         applyGeneralFilter (fun _ => none) 0
          {baseEntry with attrs := [("objectSid", "S-1-5-21-1-2-3-500")]}
          (some "nonDefault") = true)) :=
  ⟨by decide,
    (generalFilter_default_nonDefault_partition (fun _ => none) 0
      {baseEntry with attrs := [("objectSid", "S-1-5-21-1-2-3-500")]}).2.1
      (by decide)⟩

/-- One sequential guard step equals a conjunct. -/
theorem filterStep_eq_and (cond prev p : Bool) :
    (if cond && prev then p else prev) = (prev && (if cond then p else true)) := by
  cases cond <;> cases prev <;> cases p <;> rfl

theorem entryShouldShow_eq_categories (fs : FilterStates)
    (dp : String → Option Int) (now : Int) (e : Entry) :
    entryShouldShow fs dp now e =
      (categorySearch fs e && (categoryGeneral fs dp now e &&
        (categoryUAC fs e && categoryLDAP fs e))) := by
  simp only [entryShouldShow, categorySearch, categoryGeneral, categoryUAC,
    categoryLDAP]
  rw [filterStep_eq_and, filterStep_eq_and, filterStep_eq_and, filterStep_eq_and]
  cases hS : (if fs.search != "" then
      containsSubstring (getSearchableText e) fs.search else true) <;>
    cases hG : (if fs.general.enabled then
      applyGeneralFilter dp now e fs.general.generalFilter else true) <;>
    cases hU : (if fs.uac.enabled then
      (match findAttr e "userAccountControl" with
       | some uacValue => hasUACFlags uacValue fs.uac.flags
       | none => false) else true) <;>
    simp

theorem entryShouldShowReversed_eq_categories (fs : FilterStates)
    (dp : String → Option Int) (now : Int) (e : Entry) :
    entryShouldShowReversed fs dp now e =
      (categorySearch fs e && (categoryGeneral fs dp now e &&
        (categoryUAC fs e && categoryLDAP fs e))) := by
  simp only [entryShouldShowReversed, categorySearch, categoryGeneral,
    categoryUAC, categoryLDAP]
  rw [filterStep_eq_and, filterStep_eq_and, filterStep_eq_and, filterStep_eq_and]
  cases hS : (if fs.search != "" then
      containsSubstring (getSearchableText e) fs.search else true) <;>
    cases hG : (if fs.general.enabled then
      applyGeneralFilter dp now e fs.general.generalFilter else true) <;>
    cases hU : (if fs.uac.enabled then
      (match findAttr e "userAccountControl" with
       | some uacValue => hasUACFlags uacValue fs.uac.flags
       | none => false) else true) <;>
    cases hL : (if fs.ldapAttributes.enabled then
      fs.ldapAttributes.attributes.all (fun attrFilter =>
        if attrFilter.unsupportedOS then
          hasUnsupportedOS
            (match findAttr e "operatingSystem" with
             | some v => jsTrim v
             | none => "")
        else hasLDAPAttribute e attrFilter.attrName attrFilter.value)
      else true) <;>
    simp

theorem tableRowShouldShow_eq_categories (fs : FilterStates)
    (dp : String → Option Int) (now : Int) (ths : List String)
    (row : List String) :
    tableRowShouldShow fs dp now ths row =
      (tcatSearch fs row && (tcatGeneral fs dp now ths row &&
        (tcatUAC fs ths row && tcatLDAP fs ths row))) := by
  simp only [tableRowShouldShow, tcatSearch, tcatGeneral, tcatUAC, tcatLDAP]
  rw [filterStep_eq_and, filterStep_eq_and, filterStep_eq_and, filterStep_eq_and]
  cases hS : (if fs.search != "" then
      containsSubstring
        (jsToLower (String.join (row.map (fun cell => jsTrim cell ++ " "))))
        fs.search else true) <;>
    cases hG : (if fs.general.enabled then
      applyTableGeneralFilter dp now
        (findHeaderIndex ths "objectSid") (findHeaderIndex ths "whenCreated")
        (findHeaderIndex ths "lastLogon") (findHeaderIndex ths "logonCount")
        row fs.general.generalFilter true else true) <;>
    cases hU : (if fs.uac.enabled then
      (match findHeaderIndex ths "userAccountControl" with
       | some i => hasUACFlags (cellText row i) fs.uac.flags
       | none => false) else true) <;>
    simp_all

/-- Claim C2: in both views the filter engine decision is the
conjunction of the four category predicates, hence independent of the
evaluation order (shown by the reversed-order evaluation agreeing), and
with the UAC filter enabled an entry without a userAccountControl cell,
or a table without that column, is hidden. -/
theorem applyAllFilters_conjunction :
    (∀ (fs : FilterStates) (dp : String → Option Int) (now : Int) (e : Entry),
      entryShouldShow fs dp now e =
        (categorySearch fs e && (categoryGeneral fs dp now e &&
          (categoryUAC fs e && categoryLDAP fs e))))
    ∧ (∀ (fs : FilterStates) (dp : String → Option Int) (now : Int) (e : Entry),
        entryShouldShowReversed fs dp now e = entryShouldShow fs dp now e)
    ∧ (∀ (fs : FilterStates) (dp : String → Option Int) (now : Int)
        (ths row : List String),
        tableRowShouldShow fs dp now ths row =
          (tcatSearch fs row && (tcatGeneral fs dp now ths row &&
            (tcatUAC fs ths row && tcatLDAP fs ths row))))
    ∧ (∀ (fs : FilterStates) (dp : String → Option Int) (now : Int) (e : Entry),
        fs.uac.enabled = true → findAttr e "userAccountControl" = none →
        entryShouldShow fs dp now e = false)
    ∧ (∀ (fs : FilterStates) (dp : String → Option Int) (now : Int)
        (ths row : List String),
        fs.uac.enabled = true →
        findHeaderIndex ths "userAccountControl" = none →
        tableRowShouldShow fs dp now ths row = false) := by
  refine ⟨entryShouldShow_eq_categories, ?_, tableRowShouldShow_eq_categories,
    ?_, ?_⟩
  · intro fs dp now e
    rw [entryShouldShowReversed_eq_categories, entryShouldShow_eq_categories]
  · intro fs dp now e henabled hmissing
    rw [entryShouldShow_eq_categories]
    have hcat : categoryUAC fs e = false := by
      unfold categoryUAC
      rw [if_pos henabled, hmissing]
    rw [hcat]
    simp
  · intro fs dp now ths row henabled hmissing
    rw [tableRowShouldShow_eq_categories]
    have hcat : tcatUAC fs ths row = false := by
      unfold tcatUAC
      rw [if_pos henabled, hmissing]
    rw [hcat]
    simp

/-- Witness for claim C2: with the UAC filter enabled, a concrete entry
without a userAccountControl cell is hidden. -/
theorem applyAllFilters_conjunction_witness :
    ({defaultFilterStates with
        uac := ⟨true, [⟨2, false⟩]⟩} : FilterStates).uac.enabled = true
    ∧ findAttr baseEntry "userAccountControl" = none
    ∧ entryShouldShow {defaultFilterStates with uac := ⟨true, [⟨2, false⟩]⟩}
        (fun _ => none) 0 baseEntry = false :=
  ⟨rfl, by decide,
    applyAllFilters_conjunction.2.2.2.1
      {defaultFilterStates with uac := ⟨true, [⟨2, false⟩]⟩}
      (fun _ => none) 0 baseEntry rfl (by decide)⟩

theorem mem_dblQuotes_iff (c : Char) (hc : c ≠ '"') (cs : List Char) :
    c ∈ dblQuotes cs ↔ c ∈ cs := by
  induction cs with
  | nil => simp [dblQuotes]
  | cons x xs ih =>
    unfold dblQuotes
    by_cases hx : x = '"'
    · rw [if_pos hx]
      subst hx
      simp only [List.mem_cons, ih]
      constructor
      · rintro (h | h | h)
        · exact absurd h hc
        · exact absurd h hc
        · exact Or.inr h
      · rintro (h | h)
        · exact absurd h hc
        · exact Or.inr (Or.inr h)
    · rw [if_neg hx]
      simp [ih]

/-- Claim C8: an absent table aborts the export with no output; otherwise
the export emits exactly one line per table row, is unchanged by the rows
hidden states (it reads the full unfiltered table), downloads under the
fixed name ldap_dump_export.csv, and a field is quote-wrapped exactly
when it contains a comma or a newline, with embedded quotes doubled. -/
theorem exportCSV_full_table_escaping :
    exportCSV none = none
    ∧ (∀ rows : List TableRow, (csvLines rows).length = rows.length)
    ∧ (∀ rows rows2 : List TableRow,
        rows.map TableRow.cells = rows2.map TableRow.cells →
        exportCSV (some rows) = exportCSV (some rows2))
    ∧ (∀ (rows : List TableRow) (out : String × String),
        exportCSV (some rows) = some out → out.1 = "ldap_dump_export.csv")
    ∧ (∀ cell : String, (',' ∈ cell.data ∨ '\n' ∈ cell.data) →
        csvField cell = String.mk ('"' :: dblQuotes cell.data ++ ['"']))
    ∧ (∀ cell : String, ¬(',' ∈ cell.data ∨ '\n' ∈ cell.data) →
        csvField cell = String.mk (dblQuotes cell.data)) := by
  have hline : ∀ rows rows2 : List TableRow,
      rows.map TableRow.cells = rows2.map TableRow.cells →
      csvLines rows = csvLines rows2 := by
    intro rows rows2 h
    have : rows.map (fun r => csvLine r) =
        rows2.map (fun r => csvLine r) := by
      unfold csvLine
      calc rows.map (fun r => String.intercalate "," (r.cells.map csvField))
          = (rows.map TableRow.cells).map
              (fun cs => String.intercalate "," (cs.map csvField)) := by
            rw [List.map_map]
            rfl
        _ = (rows2.map TableRow.cells).map
              (fun cs => String.intercalate "," (cs.map csvField)) := by rw [h]
        _ = rows2.map (fun r => String.intercalate "," (r.cells.map csvField)) := by
            rw [List.map_map]
            rfl
    exact this
  refine ⟨rfl, ?_, ?_, ?_, ?_, ?_⟩
  · intro rows
    simp [csvLines]
  · intro rows rows2 h
    simp only [exportCSV]
    rw [hline rows rows2 h]
  · intro rows out h
    simp only [exportCSV] at h
    injection h with h2
    rw [← h2]
  · intro cell hmem
    unfold csvField
    rw [if_pos]
    rcases hmem with h | h
    · exact Or.inl ((mem_dblQuotes_iff ',' (by decide) cell.data).mpr h)
    · exact Or.inr ((mem_dblQuotes_iff '\n' (by decide) cell.data).mpr h)
  · intro cell hmem
    unfold csvField
    rw [if_neg]
    rintro (h | h)
    · exact hmem (Or.inl ((mem_dblQuotes_iff ',' (by decide) cell.data).mp h))
    · exact hmem (Or.inr ((mem_dblQuotes_iff '\n' (by decide) cell.data).mp h))

/-- Witness for claim C8: a hidden and a visible copy of the same table
export identically, and a comma field is quote-wrapped. -/
theorem exportCSV_full_table_escaping_witness :
    (([⟨["a,b", "c"], true⟩] : List TableRow).map TableRow.cells =
      ([⟨["a,b", "c"], false⟩] : List TableRow).map TableRow.cells)
    ∧ exportCSV (some [⟨["a,b", "c"], true⟩]) =
        exportCSV (some [⟨["a,b", "c"], false⟩])
    ∧ (',' ∈ "a,b".data ∨ '\n' ∈ "a,b".data)
    ∧ csvField "a,b" = String.mk ('"' :: dblQuotes "a,b".data ++ ['"']) :=
  ⟨by decide,
    exportCSV_full_table_escaping.2.2.1 [⟨["a,b", "c"], true⟩]
      [⟨["a,b", "c"], false⟩] (by decide),
    by decide,
    exportCSV_full_table_escaping.2.2.2.2.1 "a,b" (by decide)⟩

theorem markOwnedById_map_entryId (es : List Entry) (targetId : String) :
    (markOwnedById es targetId).map Entry.entryId = es.map Entry.entryId := by
  induction es with
  | nil => rfl
  | cons e es ih =>
    unfold markOwnedById
    by_cases h : e.entryId = targetId
    · rw [if_pos h]
      rfl
    · rw [if_neg h]
      simp [ih]

theorem markOwnedById_of_nodup (es : List Entry) (targetId : String)
    (hnd : (es.map Entry.entryId).Nodup) :
    markOwnedById es targetId =
      es.map (fun e =>
        if e.entryId = targetId then {e with owned := true} else e) := by
  induction es with
  | nil => rfl
  | cons e es ih =>
    simp only [List.map_cons, List.nodup_cons] at hnd
    obtain ⟨hhead, htail⟩ := hnd
    unfold markOwnedById
    by_cases h : e.entryId = targetId
    · rw [if_pos h, List.map_cons, if_pos h]
      have : es.map (fun x =>
          if x.entryId = targetId then {x with owned := true} else x) = es := by
        apply List.map_congr_left ?_ |>.trans (List.map_id es)
        intro x hx
        have hne : x.entryId ≠ targetId := by
          intro hEq
          exact hhead (h ▸ hEq ▸ List.mem_map_of_mem Entry.entryId hx)
        rw [if_neg hne]
        rfl
      rw [this]
    · rw [if_neg h, List.map_cons, if_neg h, ih htail]

/-- Entries marked twice are marked once. -/
theorem mark_mark (e : Entry) :
    ({({e with owned := true}) with owned := true} : Entry) =
      {e with owned := true} := rfl

theorem restoreOwnedEntries_char (ownedEntries : List String)
    (entries : List Entry) (hnd : (entries.map Entry.entryId).Nodup) :
    restoreOwnedEntries ownedEntries entries =
      entries.map (fun e =>
        if ownedEntries.contains e.entryId then {e with owned := true}
        else e) := by
  induction ownedEntries generalizing entries with
  | nil =>
    unfold restoreOwnedEntries
    rw [List.foldl_nil]
    symm
    apply List.map_congr_left ?_ |>.trans (List.map_id entries)
    intro x hx
    rfl
  | cons headId restIds ih =>
    unfold restoreOwnedEntries at ih ⊢
    rw [List.foldl_cons]
    have hnd2 : ((markOwnedById entries headId).map Entry.entryId).Nodup := by
      rw [markOwnedById_map_entryId]
      exact hnd
    rw [ih (markOwnedById entries headId) hnd2,
      markOwnedById_of_nodup entries headId hnd, List.map_map]
    apply List.map_congr_left
    intro e he
    by_cases h : e.entryId = headId <;>
      by_cases h2 : restIds.contains e.entryId = true <;>
      simp [h, h2, List.contains_cons, beq_iff_eq, Function.comp]

/-- Toggling an unowned entry takes the owned branch. -/
theorem toggleOwned_of_unowned (entry : Entry) (store : List String)
    (h : entry.owned = false) :
    toggleOwned entry store =
      ({entry with owned := true},
        if store.contains entry.entryId then store
        else store ++ [entry.entryId]) := by
  unfold toggleOwned
  rw [h]
  rfl

/-- Claim C9: marking an unowned record adds its id to the persisted set
and leaves it owned; and on a freshly rendered document (all entries
unowned, ids distinct) the restore pass marks as owned exactly the
entries whose id belongs to the persisted set. -/
theorem owned_tag_persistence_roundtrip :
    (∀ (entry : Entry) (store : List String), entry.owned = false →
      (toggleOwned entry store).1.owned = true ∧
      ((toggleOwned entry store).2.contains entry.entryId = true))
    ∧ (∀ (store : List String) (entries : List Entry),
        (entries.map Entry.entryId).Nodup →
        (∀ e ∈ entries, e.owned = false) →
        ∀ e2 ∈ restoreOwnedEntries store entries,
          (e2.owned = true ↔ store.contains e2.entryId = true)) := by
  constructor
  · intro entry store hunowned
    rw [toggleOwned_of_unowned entry store hunowned]
    constructor
    · rfl
    · by_cases h : store.contains entry.entryId = true
      · rw [if_pos h]
        exact h
      · rw [if_neg h]
        exact List.elem_eq_true_of_mem
          (List.mem_append_right store (List.mem_singleton_self entry.entryId))
  · intro store entries hnd hfresh e2 he2
    rw [restoreOwnedEntries_char store entries hnd] at he2
    obtain ⟨e, he, heq⟩ := List.mem_map.mp he2
    by_cases h : store.contains e.entryId = true
    · rw [if_pos h] at heq
      subst heq
      exact iff_of_true rfl h
    · rw [if_neg h] at heq
      subst heq
      exact iff_of_false (by rw [hfresh e he]; exact Bool.false_ne_true) h

/-- Witness for claim C9: one fresh entry, marked owned, then restored
from the persisted set after a reload. -/
theorem owned_tag_persistence_roundtrip_witness :
    (({baseEntry with entryId := "attributes-1"} : Entry).owned = false)
    ∧ ((toggleOwned {baseEntry with entryId := "attributes-1"} []).1.owned = true
       ∧ (toggleOwned {baseEntry with entryId := "attributes-1"} []).2.contains
           "attributes-1" = true)
    ∧ (([{baseEntry with entryId := "attributes-1"}].map Entry.entryId).Nodup
       ∧ (∀ e ∈ [({baseEntry with entryId := "attributes-1"} : Entry)],
            e.owned = false)
       ∧ ∀ e2 ∈ restoreOwnedEntries ["attributes-1"]
            [{baseEntry with entryId := "attributes-1"}],
          (e2.owned = true ↔
            (["attributes-1"] : List String).contains e2.entryId = true)) :=
  ⟨rfl,
    owned_tag_persistence_roundtrip.1 {baseEntry with entryId := "attributes-1"}
      [] rfl,
    by decide,
    by decide,
    owned_tag_persistence_roundtrip.2 ["attributes-1"]
      [{baseEntry with entryId := "attributes-1"}] (by decide) (by decide)⟩

theorem specCandidateAmended_empty : specCandidateAmended "" = none := by
  decide

/-- One forEach iteration of the code equals one candidate step of the
amended claim. -/
theorem memberOfStep_eq_cand (acc : List String) (m : String) :
    memberOfStep acc m =
      (specCandidateAmended m).elim acc (dedupAppend acc) := by
  by_cases hm : m = ""
  · subst hm
    rw [specCandidateAmended_empty]
    rfl
  · unfold memberOfStep specCandidateAmended dedupAppend
    rw [if_neg hm]
    by_cases hcn : strStartsWithChars "CN=".data
        (jsToUpper (jsTrim ((jsSplit ',' m).headD ""))).data = true
    · rw [if_pos hcn, if_pos hcn]
      by_cases hname : jsTrim (String.mk
          ((jsTrim ((jsSplit ',' m).headD "")).data.drop 3)) = "" ∨
          jsTrim (String.mk
            ((jsTrim ((jsSplit ',' m).headD "")).data.drop 3)) = "Users" ∨
          jsTrim (String.mk
            ((jsTrim ((jsSplit ',' m).headD "")).data.drop 3)) = "Builtin"
      · rw [if_pos hname]
        rw [if_neg]
        · rfl
        · rintro ⟨h1, h2, h3, _⟩
          rcases hname with h | h | h
          · exact h1 h
          · exact h2 h
          · exact h3 h
      · rw [if_neg hname]
        push_neg at hname
        obtain ⟨h1, h2, h3⟩ := hname
        by_cases hmem : jsTrim (String.mk
            ((jsTrim ((jsSplit ',' m).headD "")).data.drop 3)) ∈ acc
        · rw [if_neg (fun h => h.2.2.2 hmem)]
          simp only [Option.elim_some]
          rw [if_pos hmem]
        · rw [if_pos ⟨h1, h2, h3, hmem⟩]
          simp only [Option.elim_some]
          rw [if_neg hmem]
    · rw [if_neg hcn, if_neg hcn]
      rfl

/-- The code fold over fragments equals the claim fold over candidates. -/
theorem foldl_memberOfStep_eq (frags acc : List String) :
    frags.foldl memberOfStep acc =
      (frags.filterMap specCandidateAmended).foldl dedupAppend acc := by
  induction frags generalizing acc with
  | nil => rfl
  | cons m rest ih =>
    rw [List.foldl_cons, memberOfStep_eq_cand]
    cases hc : specCandidateAmended m with
    | none =>
      rw [List.filterMap_cons_none hc, Option.elim_none]
      exact ih acc
    | some n =>
      rw [List.filterMap_cons_some hc, Option.elim_some, List.foldl_cons]
      exact ih (dedupAppend acc n)

/-- The ungrouped bucket accumulates exactly the users without groups. -/
theorem groupedFoldl_snd (usersData : List UserData)
    (acc : List (String × List UserData) × List UserData) :
    (usersData.foldl groupedStep acc).2 =
      acc.2 ++ usersData.filter (fun u => u.groups.isEmpty) := by
  induction usersData generalizing acc with
  | nil => simp
  | cons u rest ih =>
    rw [List.foldl_cons, ih]
    by_cases h : u.groups.isEmpty = true
    · simp [groupedStep, h, List.filter_cons]
    · simp [groupedStep, h, List.filter_cons]

/-- Claim C6 (amended): the derived group names are exactly those of the
claim text amended to also skip an empty name after CN=; the ungrouped
bucket holds exactly the records with zero derived names; and the
well-known table is as listed (512 through 527, unknown ids fall through
to the Primary Group rendering). -/
theorem extractUserGroups_amended_spec :
    (∀ e : Entry, (extractUserGroups e).groups = specGroupNamesAmended e)
    ∧ (∀ usersData : List UserData,
        (createGroupedStructure usersData).2 =
          usersData.filter (fun u => u.groups.isEmpty))
    ∧ primaryGroupMapping 512 = some "Domain Admins"
    ∧ primaryGroupMapping 513 = some "Domain Users"
    ∧ primaryGroupMapping 527 = some "Enterprise Key Admins"
    ∧ primaryGroupMapping 1000 = none
    ∧ addPrimaryGroup "1000" [] = ["Primary Group (1000)"] := by
  refine ⟨?_, ?_, by decide, by decide, by decide, by decide, by decide⟩
  · intro e
    show withPrimaryGroup e (memberOfGroupNames e) = specGroupNamesAmended e
    unfold specGroupNamesAmended specGroupNamesWith
    congr 1
    unfold memberOfGroupNames specFragments
    cases findAttr e "memberOf" with
    | none => rfl
    | some t =>
      show (if jsTrim t = "" then []
            else List.foldl memberOfStep [] ((jsSplit ',' t).map jsTrim)) =
          List.foldl dedupAppend []
            (List.filterMap specCandidateAmended
              (if jsTrim t = "" then [] else (jsSplit ',' t).map jsTrim))
      by_cases h : jsTrim t = ""
      · rw [if_pos h, if_pos h]
        rfl
      · rw [if_neg h, if_neg h, foldl_memberOfStep_eq]
  · intro usersData
    unfold createGroupedStructure
    rw [groupedFoldl_snd]
    rfl

/-- Counterexample to claim C6 as stated: the memberOf fragment CN= has a
first component beginning with CN= and its trimmed remainder (the empty
string) is neither Users nor Builtin, so the claim derives one group
name, while the code derives none and files the record as ungrouped. -/
theorem extractUserGroups_claim_counterexample :
    (extractUserGroups
      {baseEntry with attrs := [("memberOf", "CN=")]}).groups = []
    ∧ specGroupNamesClaimed
        {baseEntry with attrs := [("memberOf", "CN=")]} = [""]
    ∧ (extractUserGroups
        {baseEntry with attrs := [("memberOf", "CN=")]}).groups ≠
      specGroupNamesClaimed {baseEntry with attrs := [("memberOf", "CN=")]} := by
  refine ⟨by decide, by decide, by decide⟩

/-- Claim C5: starting from an ungrouped view whose entries carry no
grouped-entry class and whose display states agree with the current
filter state, toggling group-by on and then off restores exactly the
original flat entry list, in order and content, and leaves the mode
flag off. -/
theorem groupBy_toggle_roundtrip (fs : FilterStates)
    (dp : String → Option Int) (now : Int) (s : ViewState)
    (h1 : s.isGroupedByGroups = false)
    (h2 : ∀ e ∈ s.view, e.groupedEntry = false)
    (h3 : ∀ e ∈ s.view, e.display = entryShouldShow fs dp now e) :
    (toggleUsersByGroups fs dp now (toggleUsersByGroups fs dp now s)).view =
      s.view
    ∧ (toggleUsersByGroups fs dp now
        (toggleUsersByGroups fs dp now s)).isGroupedByGroups = false := by
  have hstep1 : toggleUsersByGroups fs dp now s =
      ⟨[], applyFiltersToGroupedSections fs dp now (applyGroupByGroups s.view),
        s.view, true⟩ := by
    unfold toggleUsersByGroups
    rw [h1]
    rfl
  have hstep2 : toggleUsersByGroups fs dp now (toggleUsersByGroups fs dp now s) =
      ⟨applyFiltersToDetailView fs dp now (s.view.map removeGroupedClass),
        [], s.view, false⟩ := by
    rw [hstep1]
    rfl
  rw [hstep2]
  refine ⟨?_, rfl⟩
  show applyFiltersToDetailView fs dp now (s.view.map removeGroupedClass) =
    s.view
  have hclean : s.view.map removeGroupedClass = s.view := by
    apply List.map_congr_left ?_ |>.trans (List.map_id s.view)
    intro e he
    have hg := h2 e he
    show removeGroupedClass e = id e
    unfold removeGroupedClass
    cases e with
    | mk a b c d o hv g disp =>
      simp only at hg
      rw [hg]
      rfl
  rw [hclean]
  unfold applyFiltersToDetailView
  apply List.map_congr_left ?_ |>.trans (List.map_id s.view)
  intro e he
  have hd := h3 e he
  show ({e with display := entryShouldShow fs dp now e} : Entry) = id e
  rw [← hd]
  cases e with
  | mk a b c d o hv g disp => rfl

/-- Witness for claim C5 on the one-entry view. -/
theorem groupBy_toggle_roundtrip_witness :
    viewStateOne.isGroupedByGroups = false
    ∧ (∀ e ∈ viewStateOne.view, e.groupedEntry = false)
    ∧ (∀ e ∈ viewStateOne.view,
        e.display = entryShouldShow defaultFilterStates (fun _ => none) 0 e)
    ∧ (toggleUsersByGroups defaultFilterStates (fun _ => none) 0
        (toggleUsersByGroups defaultFilterStates (fun _ => none) 0
          viewStateOne)).view = viewStateOne.view :=
  ⟨rfl, by decide, by decide,
    (groupBy_toggle_roundtrip defaultFilterStates (fun _ => none) 0
      viewStateOne rfl (by decide) (by decide)).1⟩
